import Mathlib

/-!
# Verification of the `multicoder-auth` bridge transport

Shallow embedding of the IPC transport layer in
`src/frontend/src-tauri/src/bridge.rs` and of the `check_provider_auth`
command in `src/frontend/src-tauri/src/commands.rs`.

The Rust program is a Tauri desktop app whose `BridgeClient` turns a child
Node.js process's stdin/stdout pipes into a request/response channel:

* `send_request` (bridge.rs:338-411) allocates a fresh id, registers a
  oneshot sender in the `pending` map, writes one JSON line to the child's
  stdin and awaits the response;
* a background reader thread (`start_reader`, bridge.rs:191-229) parses
  each stdout line — first as a `JsonRpcResponse`, then as a
  `JsonRpcEvent` — resolving pending requests and forwarding events; on
  EOF or read error it clears the stdin handle;
* `is_alive` (bridge.rs:316-335) is `child present ∧ stdin present ∧ ready`;
* `shutdown` (bridge.rs:585-595) kills and waits on the child if present.

The embedding models the mutable client state (`BridgeClient`'s five
`Mutex`-guarded cells) as an explicit record `BridgeState`, oneshot
senders as numeric caller tokens, and the externally visible effects
(resolving a caller, emitting to the frontend, writing to stdin, killing
the child) as explicit output lists.  `u64` arithmetic on the id counter
is `Nat` with an explicit `% 2^64` at the single wrapping addition.
-/

/-- JSON values, mirroring `serde_json::Value` restricted to what the
bridge protocol uses (numbers are modelled as integers; every id the
protocol carries is a `u64`). -/
inductive Json where
  | null
  | bool (b : Bool)
  | num (n : Int)
  | str (s : String)
  | arr (xs : List Json)
  | obj (fields : List (String × Json))
  deriving Repr

/-- Mirror of Rust's `Result<α, String>` as used throughout `bridge.rs`
and `commands.rs` (all errors are `String`s). -/
inductive RResult (α : Type) where
  | ok (v : α)
  | err (e : String)
  deriving Repr, DecidableEq

/-- Field lookup in a JSON object's field list: first binding wins
(parsed `serde_json` maps have unique keys). -/
def getEntry : List (String × Json) → String → Option Json
  | [], _ => none
  | (k, v) :: rest, key => if k = key then some v else getEntry rest key

/-- Mirror of `serde_json::Value::get(key)`: `Some` only on objects containing the
key (commands.rs:240). -/
def Json.getField : Json → String → Option Json
  | .obj fields, key => getEntry fields key
  | _, _ => none

/-- Mirror of `serde_json::Value::as_bool` (commands.rs:240). -/
def Json.asBool : Json → Option Bool
  | .bool b => some b
  | _ => none

/-- Deserializing a `u64` field: succeeds exactly on integers in
`[0, 2^64)`. -/
def parseU64 : Json → Option Nat
  | .num n => if 0 ≤ n ∧ n < 2 ^ 64 then some n.toNat else none
  | _ => none

/-- Mirror of `struct JsonRpcRequest` (`id: u64`, `method: String`,
`params: Value`; bridge.rs:14-19), built by `send_request` and written to
the child's stdin. -/
structure JsonRpcRequest where
  id : Nat
  method : String
  params : Json
  deriving Repr

/-- Mirror of `struct JsonRpcResponse` (`id: u64`, `result: Option<Value>`,
`error: Option<String>`; bridge.rs:21-28). -/
structure JsonRpcResponse where
  id : Nat
  result : Option Json
  error : Option String
  deriving Repr

/-- Mirror of `struct JsonRpcEvent` (`event: String`, `data: Value`;
bridge.rs:30-34). -/
structure JsonRpcEvent where
  event : String
  data : Json
  deriving Repr

/-- Semantics of `serde_json::from_str::<JsonRpcResponse>` on a JSON value: requires an
object with an `id` field holding a `u64`; `result` is `Option<Value>`
(absent or `null` ↦ `None`); `error` is `Option<String>` (absent or
`null` ↦ `None`, a string ↦ `Some`, any other type fails the whole
parse).  Unknown fields are ignored, as with serde's defaults. -/
def JsonRpcResponse.fromJson (j : Json) : Option JsonRpcResponse :=
  match j with
  | .obj _ =>
    match (j.getField "id").bind parseU64 with
    | some id =>
      let result : Option Json :=
        match j.getField "result" with
        | some Json.null => none
        | some v => some v
        | none => none
      match j.getField "error" with
      | none => some ⟨id, result, none⟩
      | some Json.null => some ⟨id, result, none⟩
      | some (Json.str e) => some ⟨id, result, some e⟩
      | some _ => none
    | none => none
  | _ => none

/-- Semantics of `serde_json::from_str::<JsonRpcEvent>` on a JSON value: requires an
object with a string `event` field and a present `data` field (any JSON
value, including `null`). -/
def JsonRpcEvent.fromJson (j : Json) : Option JsonRpcEvent :=
  match j with
  | .obj _ =>
    match j.getField "event", j.getField "data" with
    | some (Json.str e), some d => some ⟨e, d⟩
    | _, _ => none
  | _ => none

/-- One line read from the child's stdout: either text that is valid JSON
(carried as its parsed value) or text that is not valid JSON (carried
verbatim; both `serde_json::from_str` calls fail on it). -/
inductive Line where
  | json (j : Json)
  | text (s : String)
  deriving Repr

/-- Attempt of `serde_json::from_str::<JsonRpcResponse>(line)` (bridge.rs:268). -/
def parse_response : Line → Option JsonRpcResponse
  | .json j => JsonRpcResponse.fromJson j
  | .text _ => none

/-- Attempt of `serde_json::from_str::<JsonRpcEvent>(line)` (bridge.rs:289). -/
def parse_event : Line → Option JsonRpcEvent
  | .json j => JsonRpcEvent.fromJson j
  | .text _ => none

/-- The guard `!line.trim().is_empty()` of the reader loop
(bridge.rs:204): a line of valid JSON is never blank. -/
def Line.isBlank : Line → Bool
  | .json _ => false
  | .text s => s.trim.isEmpty

/-! ## Client state

`BridgeClient` (bridge.rs:43-50) holds five `Mutex`-guarded cells.  The
embedding collapses them into one record; `child` and `stdin` record
whether the respective `Option` handle is `Some`, `pending` maps request
ids to caller tokens (each token standing for one `oneshot::Sender`). -/

structure BridgeState where
  child : Bool
  stdin : Bool
  next_id : Nat
  pending : List (Nat × Nat)
  ready : Bool
  deriving Repr, DecidableEq

/-- The state built by `BridgeClient::new` (bridge.rs:155-162): both
handles present, counter at 1, no pending requests, not yet ready. -/
def newState : BridgeState :=
  { child := true, stdin := true, next_id := 1, pending := [], ready := false }

/-- Lookup in the pending map, as `HashMap` lookup by key. -/
def lookupKey : List (Nat × Nat) → Nat → Option Nat
  | [], _ => none
  | (k, v) :: rest, id => if k = id then some v else lookupKey rest id

/-- Mirror of `HashMap::remove` on the pending map (in every reachable state keys
are unique, so removing all bindings of a key agrees with removing the
one binding). -/
def removeKey : List (Nat × Nat) → Nat → List (Nat × Nat)
  | [], _ => []
  | (k, v) :: rest, id => if k = id then removeKey rest id else (k, v) :: removeKey rest id

/-- Mirror of `HashMap::insert` on the pending map (bridge.rs:367): binds `k` to
`v`, replacing any previous binding. -/
def insertKey (m : List (Nat × Nat)) (k v : Nat) : List (Nat × Nat) :=
  (k, v) :: removeKey m k

/-- Externally visible effects of the reader thread: resolving a waiting
caller's oneshot (bridge.rs:280) and emitting a `message-stream` event to
the frontend (bridge.rs:299). -/
inductive Output where
  | resolve (caller : Nat) (res : RResult Json)
  | message_stream (data : Json)
  deriving Repr

/-- The value sent to the waiting caller for a matched response
(bridge.rs:273-279): a present `error` string becomes a failure,
otherwise the `result` (or JSON `null` when absent) becomes a success. -/
def respPayload (r : JsonRpcResponse) : RResult Json :=
  match r.error with
  | some e => RResult.err e
  | none => RResult.ok (r.result.getD Json.null)

/-- Mirror of `BridgeClient::handle_message` (bridge.rs:259-313): try the response
shape first; on a match, remove and resolve the pending entry for its id
(a miss is only logged).  Otherwise try the event shape: `"ready"` sets
the readiness flag, `"message"` is forwarded to the frontend, anything
else is only logged.  Unparseable lines are only logged.  Every path
returns `Ok(())`. -/
def handle_message (l : Line) (st : BridgeState) :
    BridgeState × List Output × RResult Unit :=
  match parse_response l with
  | some r =>
    match lookupKey st.pending r.id with
    | some caller =>
        ({ st with pending := removeKey st.pending r.id },
         [Output.resolve caller (respPayload r)], RResult.ok ())
    | none => (st, [], RResult.ok ())
  | none =>
    match parse_event l with
    | some ev =>
        if ev.event = "ready" then ({ st with ready := true }, [], RResult.ok ())
        else if ev.event = "message" then (st, [Output.message_stream ev.data], RResult.ok ())
        else (st, [], RResult.ok ())
    | none => (st, [], RResult.ok ())

/-- Mirror of `BridgeClient::is_alive` (bridge.rs:316-335): the child handle is
present, the stdin handle is present, and the ready flag is set. -/
def is_alive (st : BridgeState) : Bool :=
  (if st.child then st.stdin else false) && st.ready

/-! ## `send_request` -/

/-- Error message of the failed liveness check (bridge.rs:348). -/
def notRunningMsg : String :=
  "Bridge process is not running. Please restart the application."

/-- Error message for a failed write or flush (bridge.rs:385,396), around
the underlying I/O error text. -/
def closedMsg (e : String) : String :=
  "Bridge process closed unexpectedly: " ++ e ++
    ". Please check the bridge service logs and restart the application."

/-- Error message when the stdin handle is found absent at write time
(bridge.rs:401). -/
def stdinGoneMsg : String :=
  "Bridge stdin not available. Please restart the application."

/-- The environment one `send_request` call runs in: whether the reader
thread clears the stdin handle (stdout EOF, bridge.rs:222-227) in the
window between the liveness check and the acquisition of the stdin lock
at bridge.rs:373, and whether the `writeln!` and `flush` calls succeed
(with the I/O error text when they fail).  Once the stdin lock is held it
is held across both write and flush, so no other interleaving point
exists inside the call. -/
structure SendEnv where
  eofBeforeWrite : Bool
  writeOk : Bool
  flushOk : Bool
  writeErr : String
  flushErr : String
  deriving Repr

/-- What one `send_request` call leaves behind: the client state at the
point the call returns an error or starts awaiting the oneshot, the
requests actually written to the child's stdin, and the call's outcome —
`err msg` for a failure returned by the call itself, `ok id` when the
request was written and the call is now awaiting the response for `id`. -/
structure SendResult where
  state : BridgeState
  written : List JsonRpcRequest
  outcome : RResult Nat
  deriving Repr

/-- Mirror of `BridgeClient::send_request` (bridge.rs:338-411) up to the await
point: liveness check, id allocation (`u64` increment, hence `% 2^64`),
registration of the pending entry, then — under the stdin lock — the
write and flush, removing the entry again on a write or flush failure.
If the stdin handle has been cleared by the reader thread before the
stdin lock is taken, the call fails without removing the entry
(bridge.rs:399-402). -/
def send_request (st : BridgeState) (caller : Nat) (method : String)
    (params : Json) (env : SendEnv) : SendResult :=
  if ¬ is_alive st then
    ⟨st, [], RResult.err notRunningMsg⟩
  else
    let id := st.next_id
    let st1 : BridgeState := { st with next_id := (st.next_id + 1) % 2 ^ 64 }
    let st2 : BridgeState := { st1 with pending := insertKey st1.pending id caller }
    let st3 : BridgeState := if env.eofBeforeWrite then { st2 with stdin := false } else st2
    if st3.stdin then
      if env.writeOk then
        if env.flushOk then
          ⟨st3, [⟨id, method, params⟩], RResult.ok id⟩
        else
          ⟨{ st3 with pending := removeKey st3.pending id }, [⟨id, method, params⟩],
           RResult.err (closedMsg env.flushErr)⟩
      else
        ⟨{ st3 with pending := removeKey st3.pending id }, [],
         RResult.err (closedMsg env.writeErr)⟩
    else
      ⟨st3, [], RResult.err stdinGoneMsg⟩

/-- Semantics of `rx.await` at bridge.rs:408-410: the delivered value is returned
as-is; a dropped sender (`None`) becomes the "Request cancelled"
failure. -/
def awaitDelivery (delivered : Option (RResult Json)) : RResult Json :=
  match delivered with
  | some r => r
  | none => RResult.err "Request cancelled"

/-! ## Reader loop and shutdown -/

/-- One iteration's input in the reader loop (bridge.rs:202-217): a
successfully read line, or a read error (which breaks the loop). -/
inductive ReadItem where
  | line (l : Line)
  | readErr
  deriving Repr

/-- Iterated `handle_message` over a list of lines, accumulating the
outputs — the body of the reader loop for successfully read non-blank
lines. -/
def processLines (st : BridgeState) (ls : List Line) : BridgeState × List Output :=
  match ls with
  | [] => (st, [])
  | l :: rest =>
    let step := handle_message l st
    let rest' := processLines step.1 rest
    (rest'.1, step.2.1 ++ rest'.2)

/-- The reader loop of `start_reader` (bridge.rs:197-228): handle each
non-blank line, skip blank ones, break on a read error; when the loop
ends (EOF or break) clear the stdin handle. -/
def reader_loop (st : BridgeState) (items : List ReadItem) : BridgeState × List Output :=
  match items with
  | [] => ({ st with stdin := false }, [])
  | ReadItem.readErr :: _ => ({ st with stdin := false }, [])
  | ReadItem.line l :: rest =>
    if l.isBlank then reader_loop st rest
    else
      let step := handle_message l st
      let rest' := reader_loop step.1 rest
      (rest'.1, step.2.1 ++ rest'.2)

/-- Actions `shutdown` performs on the child process. -/
inductive ProcAction where
  | kill
  | wait
  deriving Repr, DecidableEq

/-- Mirror of `BridgeClient::shutdown` (bridge.rs:585-595): `take()` the child
handle; if it was present, kill and wait on it; otherwise do nothing. -/
def shutdown (st : BridgeState) : BridgeState × List ProcAction :=
  if st.child then
    ({ st with child := false }, [ProcAction.kill, ProcAction.wait])
  else
    (st, [])

/-! ## `check_provider_auth` (commands.rs:226-253)

`get_bridge` (commands.rs:10-12) is `Ok(bridge_state.inner().clone())`,
so it never fails; the command's only other fallible step is the
`checkAuth` request, whose outcome is the argument here. -/

/-- Result of `check_provider_auth` as a function of the `checkAuth`
request's outcome: on success, return the `valid` field if it is a
boolean and `false` otherwise; on failure, return `false`
(commands.rs:238-251). -/
def check_provider_auth (checkAuth : RResult Json) : RResult Bool :=
  match checkAuth with
  | RResult.ok result =>
    match (result.getField "valid").bind Json.asBool with
    | some valid => RResult.ok valid
    | none => RResult.ok false
  | RResult.err _ => RResult.ok false

/-! ## Pending-map lemmas -/

theorem removeKey_cons (a b k : Nat) (rest : List (Nat × Nat)) :
    removeKey ((a, b) :: rest) k =
      if a = k then removeKey rest k else (a, b) :: removeKey rest k := rfl

theorem lookupKey_cons (a b i : Nat) (rest : List (Nat × Nat)) :
    lookupKey ((a, b) :: rest) i =
      if a = i then some b else lookupKey rest i := rfl

theorem lookupKey_removeKey_self (m : List (Nat × Nat)) (k : Nat) :
    lookupKey (removeKey m k) k = none := by
  induction m with
  | nil => rfl
  | cons p rest ih =>
    obtain ⟨a, b⟩ := p
    rw [removeKey_cons]
    by_cases h : a = k
    · rw [if_pos h]
      exact ih
    · rw [if_neg h, lookupKey_cons, if_neg h]
      exact ih

theorem lookupKey_removeKey_ne (m : List (Nat × Nat)) {i k : Nat} (h : i ≠ k) :
    lookupKey (removeKey m k) i = lookupKey m i := by
  induction m with
  | nil => rfl
  | cons p rest ih =>
    obtain ⟨a, b⟩ := p
    rw [removeKey_cons, lookupKey_cons]
    by_cases hak : a = k
    · rw [if_pos hak, if_neg (fun hai : a = i => h (hai ▸ hak ▸ rfl))]
      exact ih
    · rw [if_neg hak, lookupKey_cons]
      by_cases hai : a = i
      · rw [if_pos hai, if_pos hai]
      · rw [if_neg hai, if_neg hai]
        exact ih

theorem mem_removeKey_iff {p : Nat × Nat} {m : List (Nat × Nat)} {k : Nat} :
    p ∈ removeKey m k ↔ p ∈ m ∧ p.1 ≠ k := by
  induction m with
  | nil => simp [removeKey]
  | cons q rest ih =>
    obtain ⟨a, b⟩ := q
    rw [removeKey_cons]
    by_cases h : a = k
    · rw [if_pos h, ih, List.mem_cons]
      constructor
      · rintro ⟨hp, hne⟩
        exact ⟨Or.inr hp, hne⟩
      · rintro ⟨hp | hp, hne⟩
        · exact absurd (h ▸ congrArg Prod.fst hp) hne
        · exact ⟨hp, hne⟩
    · rw [if_neg h, List.mem_cons, List.mem_cons, ih]
      constructor
      · rintro (hp | ⟨hp, hne⟩)
        · subst hp
          exact ⟨Or.inl rfl, h⟩
        · exact ⟨Or.inr hp, hne⟩
      · rintro ⟨hp | hp, hne⟩
        · exact Or.inl hp
        · exact Or.inr ⟨hp, hne⟩

theorem removeKey_sublist (m : List (Nat × Nat)) (k : Nat) :
    List.Sublist (removeKey m k) m := by
  induction m with
  | nil => exact List.Sublist.refl _
  | cons p rest ih =>
    obtain ⟨a, b⟩ := p
    rw [removeKey_cons]
    by_cases h : a = k
    · rw [if_pos h]
      exact ih.cons (a, b)
    · rw [if_neg h]
      exact ih.cons₂ (a, b)

theorem keys_nodup_removeKey {m : List (Nat × Nat)} (k : Nat)
    (h : (m.map Prod.fst).Nodup) : ((removeKey m k).map Prod.fst).Nodup :=
  ((removeKey_sublist m k).map Prod.fst).nodup h

theorem lookupKey_eq_some_of_mem {m : List (Nat × Nat)} {i c : Nat}
    (hnd : (m.map Prod.fst).Nodup) (hmem : (i, c) ∈ m) :
    lookupKey m i = some c := by
  induction m with
  | nil => cases hmem
  | cons p rest ih =>
    obtain ⟨a, b⟩ := p
    have hnd' := List.nodup_cons.mp hnd
    rw [lookupKey_cons]
    rcases List.mem_cons.mp hmem with h | h
    · have h1 : a = i := (congrArg Prod.fst h).symm
      have h2 : b = c := (congrArg Prod.snd h).symm
      rw [if_pos h1, h2]
    · by_cases hai : a = i
      · exact absurd (List.mem_map.mpr ⟨(i, c), h, (hai ▸ rfl : (i, c).1 = a)⟩) hnd'.1
      · rw [if_neg hai]
        exact ih hnd'.2 h

theorem mem_of_lookupKey {m : List (Nat × Nat)} {i c : Nat}
    (h : lookupKey m i = some c) : (i, c) ∈ m := by
  induction m with
  | nil => cases h
  | cons p rest ih =>
    obtain ⟨a, b⟩ := p
    rw [lookupKey_cons] at h
    by_cases hai : a = i
    · rw [if_pos hai] at h
      obtain rfl : b = c := Option.some.injEq .. ▸ h
      exact hai ▸ List.mem_cons_self _ _
    · rw [if_neg hai] at h
      exact List.mem_cons_of_mem _ (ih h)

theorem lookupKey_eq_none_of_forall {m : List (Nat × Nat)} {i : Nat}
    (h : ∀ c, (i, c) ∉ m) : lookupKey m i = none := by
  induction m with
  | nil => rfl
  | cons p rest ih =>
    obtain ⟨a, b⟩ := p
    rw [lookupKey_cons]
    by_cases hai : a = i
    · exact absurd (hai ▸ List.mem_cons_self (a, b) rest) (h b)
    · rw [if_neg hai]
      exact ih fun c hc => h c (List.mem_cons_of_mem _ hc)

/-! ## Structural lemmas about `handle_message`, `processLines`, `send_request` -/

theorem handle_message_of_response (l : Line) (st : BridgeState)
    {r : JsonRpcResponse} (h : parse_response l = some r) :
    handle_message l st =
      match lookupKey st.pending r.id with
      | some caller =>
          ({ st with pending := removeKey st.pending r.id },
           [Output.resolve caller (respPayload r)], RResult.ok ())
      | none => (st, [], RResult.ok ()) := by
  unfold handle_message
  rw [h]

theorem handle_message_ok (l : Line) (st : BridgeState) :
    (handle_message l st).2.2 = RResult.ok () := by
  unfold handle_message
  repeat' split
  all_goals rfl

theorem handle_message_pending_cases (l : Line) (st : BridgeState) :
    (handle_message l st).1.pending = st.pending ∨
    ∃ rid, (handle_message l st).1.pending = removeKey st.pending rid := by
  unfold handle_message
  repeat' split
  all_goals first
    | exact Or.inl rfl
    | exact Or.inr ⟨_, rfl⟩

theorem handle_message_pending_none {l : Line} {st : BridgeState} {i : Nat}
    (h : lookupKey st.pending i = none) :
    lookupKey (handle_message l st).1.pending i = none := by
  rcases handle_message_pending_cases l st with hc | ⟨rid, hc⟩
  · rw [hc, h]
  · rw [hc]
    by_cases hik : i = rid
    · rw [hik]
      exact lookupKey_removeKey_self _ _
    · rw [lookupKey_removeKey_ne _ hik, h]

theorem handle_message_keys_nodup {l : Line} {st : BridgeState}
    (h : (st.pending.map Prod.fst).Nodup) :
    ((handle_message l st).1.pending.map Prod.fst).Nodup := by
  rcases handle_message_pending_cases l st with hc | ⟨rid, hc⟩
  · rw [hc]
    exact h
  · rw [hc]
    exact keys_nodup_removeKey rid h

theorem handle_message_pending_subset {l : Line} {st : BridgeState}
    {p : Nat × Nat} (h : p ∈ (handle_message l st).1.pending) :
    p ∈ st.pending := by
  rcases handle_message_pending_cases l st with hc | ⟨rid, hc⟩
  · rwa [hc] at h
  · rw [hc] at h
    exact (mem_removeKey_iff.mp h).1

theorem processLines_nil (st : BridgeState) : processLines st [] = (st, []) := rfl

theorem processLines_cons (st : BridgeState) (l : Line) (ls : List Line) :
    processLines st (l :: ls) =
      ((processLines (handle_message l st).1 ls).1,
       (handle_message l st).2.1 ++ (processLines (handle_message l st).1 ls).2) := rfl

theorem processLines_pending_none {ls : List Line} {st : BridgeState} {i : Nat}
    (h : lookupKey st.pending i = none) :
    lookupKey (processLines st ls).1.pending i = none := by
  induction ls generalizing st with
  | nil => exact h
  | cons l rest ih =>
    rw [processLines_cons]
    exact ih (handle_message_pending_none h)

theorem send_request_not_alive {st : BridgeState} (h : is_alive st = false)
    (caller : Nat) (method : String) (params : Json) (env : SendEnv) :
    send_request st caller method params env = ⟨st, [], RResult.err notRunningMsg⟩ := by
  unfold send_request
  rw [if_pos (by simp [h])]

/-! ## Claim theorems -/

/-- C4: when `is_alive()` is false, `send_request` fails immediately with
the "process not running" error, leaves the whole state (in particular
the next-id counter and the pending registry) unchanged, and writes
nothing to the child's stdin (bridge.rs:345-349). -/
theorem c4_liveness_gate (st : BridgeState) (caller : Nat) (method : String)
    (params : Json) (env : SendEnv) (h : is_alive st = false) :
    (send_request st caller method params env).state = st ∧
    (send_request st caller method params env).state.next_id = st.next_id ∧
    (send_request st caller method params env).state.pending = st.pending ∧
    (send_request st caller method params env).written = [] ∧
    (send_request st caller method params env).outcome = RResult.err notRunningMsg := by
  rw [send_request_not_alive h]
  exact ⟨rfl, rfl, rfl, rfl, rfl⟩

theorem c4_liveness_gate_witness :
    is_alive newState = false ∧
    (send_request newState 5 "listProviders" (Json.obj []) ⟨false, true, true, "", ""⟩).state = newState ∧
    (send_request newState 5 "listProviders" (Json.obj []) ⟨false, true, true, "", ""⟩).outcome =
      RResult.err notRunningMsg :=
  ⟨rfl,
   (c4_liveness_gate newState 5 "listProviders" (Json.obj []) ⟨false, true, true, "", ""⟩ rfl).1,
   (c4_liveness_gate newState 5 "listProviders" (Json.obj []) ⟨false, true, true, "", ""⟩ rfl).2.2.2.2⟩

/-- C8: `shutdown` kills and waits on the child when the handle is
present and clears the handle, is a no-op when it is absent, and hence a
second `shutdown` right after a first one changes nothing and performs no
process action (bridge.rs:585-595). -/
theorem c8_shutdown_idempotent (st : BridgeState) :
    (st.child = true →
      shutdown st = ({ st with child := false }, [ProcAction.kill, ProcAction.wait])) ∧
    (st.child = false → shutdown st = (st, [])) ∧
    (shutdown (shutdown st).1).1 = (shutdown st).1 ∧
    (shutdown (shutdown st).1).2 = [] := by
  cases hc : st.child <;> simp [shutdown, hc]

theorem c8_shutdown_idempotent_witness :
    newState.child = true ∧
    shutdown newState = ({ newState with child := false }, [ProcAction.kill, ProcAction.wait]) ∧
    (shutdown (shutdown newState).1).1 = (shutdown newState).1 :=
  ⟨rfl, (c8_shutdown_idempotent newState).1 rfl, (c8_shutdown_idempotent newState).2.2.1⟩

theorem asBool_eq_some_true_iff (j : Json) :
    j.asBool = some true ↔ j = Json.bool true := by
  cases j <;> simp [Json.asBool]

theorem check_provider_auth_true_iff (j : Json) :
    check_provider_auth (RResult.ok j) = RResult.ok true ↔
      j.getField "valid" = some (Json.bool true) := by
  have hbind : (j.getField "valid").bind Json.asBool = some true ↔
      j.getField "valid" = some (Json.bool true) := by
    cases ho : j.getField "valid" with
    | none => simp
    | some v => simp [asBool_eq_some_true_iff]
  rw [← hbind]
  cases hv : (j.getField "valid").bind Json.asBool with
  | none => simp [check_provider_auth, hv]
  | some b => cases b <;> simp [check_provider_auth, hv]

/-- C10: `check_provider_auth` never returns an error — its result is
always `Ok true` or `Ok false` — and it returns `Ok true` exactly when
the `checkAuth` request succeeded with an object whose `valid` field is
the boolean `true`; a failed request, a missing `valid` field, or a
non-boolean `valid` field all yield `Ok false` (commands.rs:226-253;
`get_bridge`, its only other fallible step, is always `Ok`). -/
theorem c10_check_provider_auth_total (r : RResult Json) :
    (check_provider_auth r = RResult.ok true ∨ check_provider_auth r = RResult.ok false) ∧
    (check_provider_auth r = RResult.ok true ↔
      ∃ j, r = RResult.ok j ∧ j.getField "valid" = some (Json.bool true)) := by
  cases r with
  | err e =>
    refine ⟨Or.inr rfl, ?_⟩
    simp [check_provider_auth]
  | ok j =>
    constructor
    · cases hv : (j.getField "valid").bind Json.asBool with
      | none => exact Or.inr (by simp [check_provider_auth, hv])
      | some b =>
        cases b
        · exact Or.inr (by simp [check_provider_auth, hv])
        · exact Or.inl (by simp [check_provider_auth, hv])
    · rw [check_provider_auth_true_iff]
      simp

theorem is_alive_spec {st : BridgeState} (h : is_alive st = true) :
    st.child = true ∧ st.stdin = true ∧ st.ready = true := by
  cases hc : st.child <;> cases hs : st.stdin <;> cases hr : st.ready <;>
    simp_all [is_alive]

theorem send_request_alive {st : BridgeState} (h : is_alive st = true)
    (caller : Nat) (method : String) (params : Json) (env : SendEnv) :
    send_request st caller method params env =
      let id := st.next_id
      let st2 : BridgeState :=
        { st with next_id := (st.next_id + 1) % 2 ^ 64,
                  pending := insertKey st.pending id caller }
      if env.eofBeforeWrite then
        ⟨{ st2 with stdin := false }, [], RResult.err stdinGoneMsg⟩
      else if env.writeOk then
        if env.flushOk then
          ⟨st2, [⟨id, method, params⟩], RResult.ok id⟩
        else
          ⟨{ st2 with pending := removeKey st2.pending id }, [⟨id, method, params⟩],
           RResult.err (closedMsg env.flushErr)⟩
      else
        ⟨{ st2 with pending := removeKey st2.pending id }, [],
         RResult.err (closedMsg env.writeErr)⟩ := by
  have hs := is_alive_spec h
  unfold send_request
  rw [if_neg (by simp [h])]
  cases he : env.eofBeforeWrite
  · cases hw : env.writeOk
    · simp [he, hw, hs.2.1]
    · cases hf : env.flushOk <;> simp [he, hw, hf, hs.2.1]
  · simp [he]

/-- C2: a response line with a matching pending entry resolves exactly
that caller: to the failure carrying the response's `error` string when
`error` is present, and to the success carrying the `result` value — or
JSON `null` when `result` is absent — otherwise (bridge.rs:271-281); the
waiting `send_request` returns the delivered value as-is
(bridge.rs:408-410). -/
theorem c2_response_resolution (l : Line) (st : BridgeState)
    (r : JsonRpcResponse) (caller : Nat) (hp : parse_response l = some r)
    (hl : lookupKey st.pending r.id = some caller) :
    (∀ e, r.error = some e →
      (handle_message l st).2.1 = [Output.resolve caller (RResult.err e)] ∧
      awaitDelivery (some (RResult.err e)) = RResult.err e) ∧
    (r.error = none →
      (handle_message l st).2.1 =
        [Output.resolve caller (RResult.ok (r.result.getD Json.null))] ∧
      awaitDelivery (some (RResult.ok (r.result.getD Json.null))) =
        RResult.ok (r.result.getD Json.null)) := by
  rw [handle_message_of_response l st hp, hl]
  constructor
  · intro e he
    exact ⟨by simp [respPayload, he], rfl⟩
  · intro he
    exact ⟨by simp [respPayload, he], rfl⟩

theorem c2_response_resolution_witness :
    parse_response (Line.json (Json.obj [("id", Json.num 5), ("error", Json.str "nope")])) =
      some ⟨5, none, some "nope"⟩ ∧
    lookupKey [(5, 42)] 5 = some 42 ∧
    (handle_message (Line.json (Json.obj [("id", Json.num 5), ("error", Json.str "nope")]))
        { child := true, stdin := true, next_id := 6, pending := [(5, 42)], ready := true }).2.1 =
      [Output.resolve 42 (RResult.err "nope")] :=
  ⟨rfl, rfl,
   ((c2_response_resolution
      (Line.json (Json.obj [("id", Json.num 5), ("error", Json.str "nope")]))
      { child := true, stdin := true, next_id := 6, pending := [(5, 42)], ready := true }
      ⟨5, none, some "nope"⟩ 42 rfl rfl).1 "nope" rfl).1⟩

/-- C5: when the write (or the flush) to the child's stdin fails, the
pending entry registered for the call's id is removed again before the
call returns, and the returned failure is the "process closed
unexpectedly" message wrapping the underlying I/O error text
(bridge.rs:381-397). -/
theorem c5_transport_failure_cleanup (st : BridgeState) (caller : Nat)
    (method : String) (params : Json) (env : SendEnv)
    (halive : is_alive st = true) (heof : env.eofBeforeWrite = false) :
    (env.writeOk = false →
      (send_request st caller method params env).outcome =
        RResult.err (closedMsg env.writeErr) ∧
      lookupKey (send_request st caller method params env).state.pending st.next_id = none) ∧
    (env.writeOk = true → env.flushOk = false →
      (send_request st caller method params env).outcome =
        RResult.err (closedMsg env.flushErr) ∧
      lookupKey (send_request st caller method params env).state.pending st.next_id = none) := by
  rw [send_request_alive halive caller method params env]
  constructor
  · intro hw
    simp [heof, hw, lookupKey_removeKey_self]
  · intro hw hf
    simp [heof, hw, hf, lookupKey_removeKey_self]

theorem c5_transport_failure_cleanup_witness :
    is_alive { child := true, stdin := true, next_id := 3,
               pending := [(1, 10)], ready := true } = true ∧
    (send_request
        { child := true, stdin := true, next_id := 3, pending := [(1, 10)], ready := true }
        7 "sendMessage" Json.null ⟨false, false, true, "broken pipe", ""⟩).outcome =
      RResult.err (closedMsg "broken pipe") ∧
    lookupKey (send_request
        { child := true, stdin := true, next_id := 3, pending := [(1, 10)], ready := true }
        7 "sendMessage" Json.null ⟨false, false, true, "broken pipe", ""⟩).state.pending 3 =
      none :=
  ⟨rfl,
   ((c5_transport_failure_cleanup
      { child := true, stdin := true, next_id := 3, pending := [(1, 10)], ready := true }
      7 "sendMessage" Json.null ⟨false, false, true, "broken pipe", ""⟩ rfl rfl).1 rfl).1,
   ((c5_transport_failure_cleanup
      { child := true, stdin := true, next_id := 3, pending := [(1, 10)], ready := true }
      7 "sendMessage" Json.null ⟨false, false, true, "broken pipe", ""⟩ rfl rfl).1 rfl).2⟩

/-- C6: `handle_message` returns `Ok(())` on every line — so no message
content terminates the reader loop — and a line that parses as a
response is handled as a response even when it would also parse as an
event: the ready flag is untouched and nothing is dispatched to the
frontend (bridge.rs:259-313, response branch tried first). -/
theorem c6_response_precedence (l : Line) (st : BridgeState) :
    (handle_message l st).2.2 = RResult.ok () ∧
    (∀ r, parse_response l = some r →
      (handle_message l st).1.ready = st.ready ∧
      ∀ d, Output.message_stream d ∉ (handle_message l st).2.1) := by
  refine ⟨handle_message_ok l st, fun r hp => ?_⟩
  rw [handle_message_of_response l st hp]
  split <;> simp

theorem c6_response_precedence_witness :
    parse_response (Line.json (Json.obj
        [("id", Json.num 1), ("event", Json.str "ready"), ("data", Json.null)])) =
      some ⟨1, none, none⟩ ∧
    parse_event (Line.json (Json.obj
        [("id", Json.num 1), ("event", Json.str "ready"), ("data", Json.null)])) =
      some ⟨"ready", Json.null⟩ ∧
    (handle_message (Line.json (Json.obj
        [("id", Json.num 1), ("event", Json.str "ready"), ("data", Json.null)]))
        newState).1.ready = newState.ready :=
  ⟨rfl, rfl,
   ((c6_response_precedence
      (Line.json (Json.obj
        [("id", Json.num 1), ("event", Json.str "ready"), ("data", Json.null)]))
      newState).2 ⟨1, none, none⟩ rfl).1⟩

theorem reader_loop_stdin (st : BridgeState) (items : List ReadItem) :
    (reader_loop st items).1.stdin = false := by
  induction items generalizing st with
  | nil => rfl
  | cons item rest ih =>
    cases item with
    | readErr => rfl
    | line l =>
      by_cases hb : l.isBlank = true
      · simpa [reader_loop, hb] using ih st
      · simpa [reader_loop, hb] using ih (handle_message l st).1

theorem is_alive_of_stdin_false {st : BridgeState} (h : st.stdin = false) :
    is_alive st = false := by
  unfold is_alive
  rw [h]
  cases st.child <;> simp

/-- C9: whatever the reader loop consumes — ending on end-of-stream or on
a read error — it leaves the stdin handle cleared; from then on
`is_alive` is false and every subsequent `send_request` fails fast with
the "process not running" error, changing nothing and writing nothing
(bridge.rs:202-227, 316-335, 345-349). -/
theorem c9_reader_exit_kills_liveness (st : BridgeState) (items : List ReadItem)
    (caller : Nat) (method : String) (params : Json) (env : SendEnv) :
    (reader_loop st items).1.stdin = false ∧
    is_alive (reader_loop st items).1 = false ∧
    send_request (reader_loop st items).1 caller method params env =
      ⟨(reader_loop st items).1, [], RResult.err notRunningMsg⟩ :=
  have h1 := reader_loop_stdin st items
  have h2 := is_alive_of_stdin_false h1
  ⟨h1, h2, send_request_not_alive h2 caller method params env⟩

/-! ## Id allocation across a sequence of calls -/

/-- Arguments and I/O environment of one `send_request` call in a
sequence of successive calls on the same client. -/
structure Call where
  caller : Nat
  method : String
  params : Json
  env : SendEnv

/-- Ids handed out by the next-id counter across successive
`send_request` calls: bridge.rs:351-356 allocates `id = *next_id` (and
increments the counter) exactly when the liveness check has passed, on
every path — including calls that later fail on write or flush. -/
def allocatedIds (st : BridgeState) : List Call → List Nat
  | [] => []
  | c :: cs =>
    (if is_alive st then [st.next_id] else []) ++
      allocatedIds (send_request st c.caller c.method c.params c.env).state cs

theorem allocatedIds_cons (st : BridgeState) (c : Call) (cs : List Call) :
    allocatedIds st (c :: cs) =
      (if is_alive st then [st.next_id] else []) ++
        allocatedIds (send_request st c.caller c.method c.params c.env).state cs := rfl

theorem send_request_next_id_alive {st : BridgeState} (h : is_alive st = true)
    (caller : Nat) (method : String) (params : Json) (env : SendEnv) :
    (send_request st caller method params env).state.next_id =
      (st.next_id + 1) % 2 ^ 64 := by
  rw [send_request_alive h caller method params env]
  cases he : env.eofBeforeWrite <;> cases hw : env.writeOk <;>
    cases hf : env.flushOk <;> simp [he, hw, hf]

theorem allocatedIds_eq_range' (cs : List Call) :
    ∀ st : BridgeState, st.next_id + cs.length < 2 ^ 64 →
    ∃ k, allocatedIds st cs = List.range' st.next_id k := by
  induction cs with
  | nil => exact fun st _ => ⟨0, rfl⟩
  | cons c cs ih =>
    intro st h
    cases halive : is_alive st
    · obtain ⟨k, hk⟩ := ih st (by simp at h ⊢; omega)
      refine ⟨k, ?_⟩
      rw [allocatedIds_cons, send_request_not_alive halive, halive]
      simpa using hk
    · have hnext : (send_request st c.caller c.method c.params c.env).state.next_id =
          st.next_id + 1 := by
        rw [send_request_next_id_alive halive]
        exact Nat.mod_eq_of_lt (by simp at h; omega)
      obtain ⟨k, hk⟩ := ih (send_request st c.caller c.method c.params c.env).state
        (by rw [hnext]; simp at h; omega)
      refine ⟨k + 1, ?_⟩
      rw [allocatedIds_cons, halive, hk, hnext, List.range'_succ]
      rfl

/-- C7: starting from a counter at 1 (as `BridgeClient::new` sets it,
bridge.rs:158), the ids allocated by successive `send_request` calls that
pass the liveness check form an initial run `1, 2, 3, …` — strictly
increasing, never repeated, even across calls that fail with a write
error — as long as the `u64` counter does not wrap. -/
theorem c7_ids_strictly_increasing (st : BridgeState) (cs : List Call)
    (hstart : st.next_id = 1) (hbound : 1 + cs.length < 2 ^ 64) :
    (∃ k, allocatedIds st cs = List.range' 1 k) ∧
    List.Pairwise (· < ·) (allocatedIds st cs) ∧
    (allocatedIds st cs).Nodup := by
  obtain ⟨k, hk⟩ := allocatedIds_eq_range' cs st (by rw [hstart]; exact hbound)
  rw [hstart] at hk
  refine ⟨⟨k, hk⟩, ?_, ?_⟩
  · rw [hk]
    exact List.pairwise_lt_range' 1 k 1 (by omega)
  · rw [hk]
    exact List.nodup_range' 1 k

theorem c7_ids_strictly_increasing_witness :
    ({ child := true, stdin := true, next_id := 1, pending := [],
       ready := true } : BridgeState).next_id = 1 ∧
    1 + ([⟨10, "launch", Json.null, ⟨false, true, true, "", ""⟩⟩,
          ⟨11, "stop", Json.null, ⟨false, false, true, "pipe", ""⟩⟩,
          ⟨12, "listProfiles", Json.null, ⟨false, true, true, "", ""⟩⟩] : List Call).length < 2 ^ 64 ∧
    allocatedIds
      { child := true, stdin := true, next_id := 1, pending := [], ready := true }
      [⟨10, "launch", Json.null, ⟨false, true, true, "", ""⟩⟩,
       ⟨11, "stop", Json.null, ⟨false, false, true, "pipe", ""⟩⟩,
       ⟨12, "listProfiles", Json.null, ⟨false, true, true, "", ""⟩⟩] = [1, 2, 3] ∧
    List.Pairwise (· < ·) (allocatedIds
      { child := true, stdin := true, next_id := 1, pending := [], ready := true }
      [⟨10, "launch", Json.null, ⟨false, true, true, "", ""⟩⟩,
       ⟨11, "stop", Json.null, ⟨false, false, true, "pipe", ""⟩⟩,
       ⟨12, "listProfiles", Json.null, ⟨false, true, true, "", ""⟩⟩]) :=
  ⟨rfl, by norm_num, rfl,
   (c7_ids_strictly_increasing
      { child := true, stdin := true, next_id := 1, pending := [], ready := true }
      [⟨10, "launch", Json.null, ⟨false, true, true, "", ""⟩⟩,
       ⟨11, "stop", Json.null, ⟨false, false, true, "pipe", ""⟩⟩,
       ⟨12, "listProfiles", Json.null, ⟨false, true, true, "", ""⟩⟩]
      rfl (by norm_num)).2.1⟩

/-! ## `send_request` path equations -/

theorem send_request_success {st : BridgeState} {env : SendEnv}
    (halive : is_alive st = true) (heof : env.eofBeforeWrite = false)
    (hw : env.writeOk = true) (hf : env.flushOk = true)
    (caller : Nat) (method : String) (params : Json) :
    send_request st caller method params env =
      ⟨{ st with next_id := (st.next_id + 1) % 2 ^ 64,
                 pending := insertKey st.pending st.next_id caller },
       [⟨st.next_id, method, params⟩], RResult.ok st.next_id⟩ := by
  rw [send_request_alive halive caller method params env]
  simp [heof, hw, hf]

theorem send_request_write_failure {st : BridgeState} {env : SendEnv}
    (halive : is_alive st = true) (heof : env.eofBeforeWrite = false)
    (hw : env.writeOk = false)
    (caller : Nat) (method : String) (params : Json) :
    send_request st caller method params env =
      ⟨{ st with next_id := (st.next_id + 1) % 2 ^ 64,
                 pending := removeKey (insertKey st.pending st.next_id caller) st.next_id },
       [], RResult.err (closedMsg env.writeErr)⟩ := by
  rw [send_request_alive halive caller method params env]
  simp [heof, hw]

theorem send_request_flush_failure {st : BridgeState} {env : SendEnv}
    (halive : is_alive st = true) (heof : env.eofBeforeWrite = false)
    (hw : env.writeOk = true) (hf : env.flushOk = false)
    (caller : Nat) (method : String) (params : Json) :
    send_request st caller method params env =
      ⟨{ st with next_id := (st.next_id + 1) % 2 ^ 64,
                 pending := removeKey (insertKey st.pending st.next_id caller) st.next_id },
       [⟨st.next_id, method, params⟩], RResult.err (closedMsg env.flushErr)⟩ := by
  rw [send_request_alive halive caller method params env]
  simp [heof, hw, hf]

/-- C3 fails as stated: when the reader thread clears the stdin handle
after `send_request`'s liveness check but before `send_request` takes the
stdin lock (the reader thread holds no lock the whole time, bridge.rs:222-227),
the call takes the `else` branch at bridge.rs:399-402 and returns the
"stdin not available" failure after allocating id 1 and registering its
pending entry — without removing that entry, which remains in the
registry.  This exhibits an exit path of `send_request` with a failure
returned after id allocation on which a pending entry for the call's id
survives. -/
theorem c3_counterexample :
    (send_request
        { child := true, stdin := true, next_id := 1, pending := [], ready := true }
        7 "launch" Json.null ⟨true, true, true, "", ""⟩).outcome =
      RResult.err stdinGoneMsg ∧
    (send_request
        { child := true, stdin := true, next_id := 1, pending := [], ready := true }
        7 "launch" Json.null ⟨true, true, true, "", ""⟩).state.next_id = 2 ∧
    lookupKey (send_request
        { child := true, stdin := true, next_id := 1, pending := [], ready := true }
        7 "launch" Json.null ⟨true, true, true, "", ""⟩).state.pending 1 = some 7 :=
  ⟨rfl, rfl, rfl⟩

/-- C3 (amended): excluding the interleaving in which the stdin handle is
cleared between the liveness check and the write, every `send_request`
call that passes the liveness check registers the pending entry for its
id before the write (the entry is present, with the request written,
whenever the write succeeds) and the entry is removed exactly once:
by the call itself, before it returns, on a write or flush failure
(bridge.rs:384, 395), or by the matching response in `handle_message`,
which removes it and resolves the caller (bridge.rs:271-281), so no
pending entry for the id remains afterwards. -/
theorem c3_pending_lifecycle (st : BridgeState) (caller : Nat) (method : String)
    (params : Json) (env : SendEnv) (halive : is_alive st = true)
    (heof : env.eofBeforeWrite = false) :
    ((env.writeOk = false ∨ env.flushOk = false) →
      lookupKey (send_request st caller method params env).state.pending st.next_id = none ∧
      ∃ e, (send_request st caller method params env).outcome = RResult.err e) ∧
    (env.writeOk = true → env.flushOk = true →
      (send_request st caller method params env).outcome = RResult.ok st.next_id ∧
      lookupKey (send_request st caller method params env).state.pending st.next_id =
        some caller ∧
      (send_request st caller method params env).written = [⟨st.next_id, method, params⟩] ∧
      (∀ l resp, parse_response l = some resp → resp.id = st.next_id →
        lookupKey (handle_message l
            (send_request st caller method params env).state).1.pending st.next_id = none ∧
        (handle_message l (send_request st caller method params env).state).2.1 =
          [Output.resolve caller (respPayload resp)])) := by
  constructor
  · rintro (hw | hf)
    · rw [send_request_write_failure halive heof hw caller method params]
      exact ⟨lookupKey_removeKey_self _ _, closedMsg env.writeErr, rfl⟩
    · by_cases hw : env.writeOk = true
      · rw [send_request_flush_failure halive heof hw hf caller method params]
        exact ⟨lookupKey_removeKey_self _ _, closedMsg env.flushErr, rfl⟩
      · have hw' : env.writeOk = false := by simpa using hw
        rw [send_request_write_failure halive heof hw' caller method params]
        exact ⟨lookupKey_removeKey_self _ _, closedMsg env.writeErr, rfl⟩
  · intro hw hf
    rw [send_request_success halive heof hw hf caller method params]
    have hlook : lookupKey (insertKey st.pending st.next_id caller) st.next_id =
        some caller := by
      rw [insertKey, lookupKey_cons, if_pos rfl]
    refine ⟨rfl, hlook, rfl, ?_⟩
    intro l resp hp hid
    rw [handle_message_of_response l _ hp, hid, hlook]
    exact ⟨lookupKey_removeKey_self _ _, rfl⟩

theorem c3_pending_lifecycle_witness :
    is_alive { child := true, stdin := true, next_id := 1, pending := [],
               ready := true } = true ∧
    parse_response (Line.json (Json.obj [("id", Json.num 1)])) = some ⟨1, none, none⟩ ∧
    (send_request
        { child := true, stdin := true, next_id := 1, pending := [], ready := true }
        7 "launch" Json.null ⟨false, true, true, "", ""⟩).outcome = RResult.ok 1 ∧
    lookupKey (handle_message (Line.json (Json.obj [("id", Json.num 1)]))
        (send_request
          { child := true, stdin := true, next_id := 1, pending := [], ready := true }
          7 "launch" Json.null ⟨false, true, true, "", ""⟩).state).1.pending 1 = none ∧
    (handle_message (Line.json (Json.obj [("id", Json.num 1)]))
        (send_request
          { child := true, stdin := true, next_id := 1, pending := [], ready := true }
          7 "launch" Json.null ⟨false, true, true, "", ""⟩).state).2.1 =
      [Output.resolve 7 (RResult.ok Json.null)] :=
  ⟨rfl, rfl,
   ((c3_pending_lifecycle
      { child := true, stdin := true, next_id := 1, pending := [], ready := true }
      7 "launch" Json.null ⟨false, true, true, "", ""⟩ rfl rfl).2 rfl rfl).1,
   (((c3_pending_lifecycle
      { child := true, stdin := true, next_id := 1, pending := [], ready := true }
      7 "launch" Json.null ⟨false, true, true, "", ""⟩ rfl rfl).2 rfl rfl).2.2.2
      (Line.json (Json.obj [("id", Json.num 1)])) ⟨1, none, none⟩ rfl rfl).1,
   (((c3_pending_lifecycle
      { child := true, stdin := true, next_id := 1, pending := [], ready := true }
      7 "launch" Json.null ⟨false, true, true, "", ""⟩ rfl rfl).2 rfl rfl).2.2.2
      (Line.json (Json.obj [("id", Json.num 1)])) ⟨1, none, none⟩ rfl rfl).2⟩

/-! ## Order-independent response demultiplexing -/

theorem handle_message_hit {l : Line} {st : BridgeState} {r : JsonRpcResponse}
    {caller : Nat} (hp : parse_response l = some r)
    (hl : lookupKey st.pending r.id = some caller) :
    handle_message l st =
      ({ st with pending := removeKey st.pending r.id },
       [Output.resolve caller (respPayload r)], RResult.ok ()) := by
  rw [handle_message_of_response l st hp, hl]

theorem handle_message_miss {l : Line} {st : BridgeState} {r : JsonRpcResponse}
    (hp : parse_response l = some r)
    (hl : lookupKey st.pending r.id = none) :
    handle_message l st = (st, [], RResult.ok ()) := by
  rw [handle_message_of_response l st hp, hl]

theorem processLines_resolves {ls : List Line} {rs : List JsonRpcResponse}
    (hpar : List.Forall₂ (fun l r => parse_response l = some r) ls rs) :
    ∀ (st : BridgeState) (id caller : Nat) (r : JsonRpcResponse),
      (st.pending.map Prod.fst).Nodup →
      (rs.map JsonRpcResponse.id).Nodup →
      (id, caller) ∈ st.pending → r ∈ rs → r.id = id →
      Output.resolve caller (respPayload r) ∈ (processLines st ls).2 ∧
      lookupKey (processLines st ls).1.pending id = none := by
  induction hpar with
  | nil =>
    intro st id caller r _ _ _ hr _
    cases hr
  | @cons a b l₁ l₂ h₁ h₂ ih =>
    intro st id caller r hnd hnds hmem hr hid
    have hnds' : b.id ∉ l₂.map JsonRpcResponse.id ∧ (l₂.map JsonRpcResponse.id).Nodup := by
      rw [List.map_cons] at hnds
      exact List.nodup_cons.mp hnds
    rw [processLines_cons]
    rcases List.mem_cons.mp hr with hr0 | hrtail
    · subst hr0
      have hlook : lookupKey st.pending r.id = some caller := by
        rw [hid]
        exact lookupKey_eq_some_of_mem hnd hmem
      rw [handle_message_hit h₁ hlook]
      constructor
      · exact List.mem_append_left _ (List.mem_singleton.mpr rfl)
      · exact processLines_pending_none
          (by rw [← hid]; exact lookupKey_removeKey_self _ _)
    · have hbne : b.id ≠ id := fun hb =>
        hnds'.1 (List.mem_map.mpr ⟨r, hrtail, hid.trans hb.symm⟩)
      cases hcase : lookupKey st.pending b.id with
      | some c' =>
        rw [handle_message_hit h₁ hcase]
        have hmem' : (id, caller) ∈ removeKey st.pending b.id :=
          mem_removeKey_iff.mpr ⟨hmem, fun h => hbne h.symm⟩
        obtain ⟨m1, m2⟩ := ih { st with pending := removeKey st.pending b.id }
          id caller r (keys_nodup_removeKey _ hnd) hnds'.2 hmem' hrtail hid
        exact ⟨List.mem_append_right _ m1, m2⟩
      | none =>
        rw [handle_message_miss h₁ hcase]
        obtain ⟨m1, m2⟩ := ih st id caller r hnd hnds'.2 hmem hrtail hid
        exact ⟨List.mem_append_right _ m1, m2⟩

theorem processLines_resolve_source {ls : List Line} {rs : List JsonRpcResponse}
    (hpar : List.Forall₂ (fun l r => parse_response l = some r) ls rs) :
    ∀ (st : BridgeState) (caller : Nat) (res : RResult Json),
      Output.resolve caller res ∈ (processLines st ls).2 →
      ∃ id r, (id, caller) ∈ st.pending ∧ r ∈ rs ∧ r.id = id ∧ res = respPayload r := by
  induction hpar with
  | nil =>
    intro st caller res h
    simp [processLines_nil] at h
  | @cons a b l₁ l₂ h₁ h₂ ih =>
    intro st caller res h
    rw [processLines_cons] at h
    rcases List.mem_append.mp h with hhead | htail
    · cases hcase : lookupKey st.pending b.id with
      | some c' =>
        rw [handle_message_hit h₁ hcase] at hhead
        have heq := List.mem_singleton.mp hhead
        injection heq with hc hres
        subst hc
        subst hres
        exact ⟨b.id, b, mem_of_lookupKey hcase, List.mem_cons_self _ _, rfl, rfl⟩
      | none =>
        rw [handle_message_miss h₁ hcase] at hhead
        simp at hhead
    · obtain ⟨id, r, hmem, hr, hid, hres⟩ := ih (handle_message a st).1 caller res htail
      exact ⟨id, r, handle_message_pending_subset hmem,
             List.mem_cons_of_mem _ hr, hid, hres⟩

/-- C1: with distinct ids registered in the pending registry and any
sequence of response lines carrying distinct ids, the demultiplexer
resolves each waiting caller with exactly the payload of the response
bearing that caller's own id — whatever order the responses arrive in —
and removes that id from the registry; conversely, every resolution
delivered to a caller is the payload of a response bearing an id
registered for that caller (bridge.rs:268-285, 362-410). -/
theorem c1_order_independent_demux (st : BridgeState) (ls : List Line)
    (rs : List JsonRpcResponse)
    (hpar : List.Forall₂ (fun l r => parse_response l = some r) ls rs)
    (hnd : (st.pending.map Prod.fst).Nodup)
    (hnds : (rs.map JsonRpcResponse.id).Nodup) :
    (∀ id caller r, (id, caller) ∈ st.pending → r ∈ rs → r.id = id →
      Output.resolve caller (respPayload r) ∈ (processLines st ls).2 ∧
      lookupKey (processLines st ls).1.pending id = none) ∧
    (∀ caller res, Output.resolve caller res ∈ (processLines st ls).2 →
      ∃ id r, (id, caller) ∈ st.pending ∧ r ∈ rs ∧ r.id = id ∧ res = respPayload r) :=
  ⟨fun id caller r hmem hr hid =>
     processLines_resolves hpar st id caller r hnd hnds hmem hr hid,
   fun caller res h => processLines_resolve_source hpar st caller res h⟩

theorem c1_order_independent_demux_witness :
    (([(1, 10), (2, 20)] : List (Nat × Nat)).map Prod.fst).Nodup ∧
    (([⟨2, some (Json.str "b"), none⟩, ⟨1, none, some "boom"⟩] :
        List JsonRpcResponse).map JsonRpcResponse.id).Nodup ∧
    Output.resolve 10 (RResult.err "boom") ∈
      (processLines
        { child := true, stdin := true, next_id := 3, pending := [(1, 10), (2, 20)],
          ready := true }
        [Line.json (Json.obj [("id", Json.num 2), ("result", Json.str "b")]),
         Line.json (Json.obj [("id", Json.num 1), ("error", Json.str "boom")])]).2 ∧
    lookupKey (processLines
        { child := true, stdin := true, next_id := 3, pending := [(1, 10), (2, 20)],
          ready := true }
        [Line.json (Json.obj [("id", Json.num 2), ("result", Json.str "b")]),
         Line.json (Json.obj [("id", Json.num 1), ("error", Json.str "boom")])]).1.pending 1 =
      none :=
  ⟨by decide, by decide,
   ((c1_order_independent_demux
      { child := true, stdin := true, next_id := 3, pending := [(1, 10), (2, 20)],
        ready := true }
      [Line.json (Json.obj [("id", Json.num 2), ("result", Json.str "b")]),
       Line.json (Json.obj [("id", Json.num 1), ("error", Json.str "boom")])]
      [⟨2, some (Json.str "b"), none⟩, ⟨1, none, some "boom"⟩]
      (List.Forall₂.cons rfl (List.Forall₂.cons rfl List.Forall₂.nil))
      (by decide) (by decide)).1 1 10 ⟨1, none, some "boom"⟩
      (List.mem_cons_self _ _) (List.mem_cons_of_mem _ (List.mem_cons_self _ _)) rfl).1,
   ((c1_order_independent_demux
      { child := true, stdin := true, next_id := 3, pending := [(1, 10), (2, 20)],
        ready := true }
      [Line.json (Json.obj [("id", Json.num 2), ("result", Json.str "b")]),
       Line.json (Json.obj [("id", Json.num 1), ("error", Json.str "boom")])]
      [⟨2, some (Json.str "b"), none⟩, ⟨1, none, some "boom"⟩]
      (List.Forall₂.cons rfl (List.Forall₂.cons rfl List.Forall₂.nil))
      (by decide) (by decide)).1 1 10 ⟨1, none, some "boom"⟩
      (List.mem_cons_self _ _) (List.mem_cons_of_mem _ (List.mem_cons_self _ _)) rfl).2⟩
